import Mathlib

/-!
Verification of the command-to-variable binding core of JoyShockMapper
(`src/JoyShockMapper/include/JSMAssignment.hpp`).

The assignment command itself (`ParseData`, `DefaultParser`,
`ModeshiftParser`, `DisplayNewValue`, `GetModifiedCmd`, the
constructor/destructor listener wiring) is embedded directly from the
header. The collaborating classes (`JSMVariable`, `JSMSetting`,
`JSMButton`, `JSMCommand`, the `ButtonID` catalogue) live outside the
given source fragment; their behaviour is modelled from the
specification, and each such definition says so in its doc comment.

Output (`cout` lines) is modelled as an explicit `List String` produced
by each operation; the mutable variable is threaded through explicitly.
-/

/-- Modelled from the spec: `ChangeNotifier<T>` listener entry — a unique
id together with a callback; callbacks produce output lines. -/
structure Listener (T : Type) where
  id : Nat
  callback : T → List String

/-- Modelled from the spec: `Variable<T>` (`JSMVariable<T>`, not under
`src/`) — a mutable type-T cell with a normalization filter and an owned
change-notifier listener registry (listener ids are handed out
monotonically). -/
structure JSMVariable (T : Type) where
  value : T
  filter : T → T
  nextListenerId : Nat
  listeners : List (Listener T)

/-- Modelled from the spec: `Variable<T>.set` stores the new value after
normalization, and notifies all listeners (in subscription order) exactly
when the stored value differs from the prior stored value. Returns the
updated variable and the output lines the listeners produced. -/
def JSMVariable.set {T : Type} [DecidableEq T] (v : JSMVariable T) (newVal : T) :
    JSMVariable T × List String :=
  let stored := v.filter newVal
  if stored = v.value then
    (⟨stored, v.filter, v.nextListenerId, v.listeners⟩, [])
  else
    (⟨stored, v.filter, v.nextListenerId, v.listeners⟩,
      (v.listeners.map (fun l => l.callback stored)).flatten)

/-- Modelled from the spec: `ChangeNotifier.subscribe` — appends a
listener under a fresh, monotonically increasing id and returns the id. -/
def JSMVariable.addOnChangeListener {T : Type} (v : JSMVariable T)
    (cb : T → List String) : JSMVariable T × Nat :=
  (⟨v.value, v.filter, v.nextListenerId + 1,
    v.listeners ++ [⟨v.nextListenerId, cb⟩]⟩, v.nextListenerId)

/-- Modelled from the spec: `ChangeNotifier.unsubscribe` — removes the
listener with the given id; a no-op if the id is absent. -/
def JSMVariable.removeOnChangeListener {T : Type} (v : JSMVariable T)
    (i : Nat) : JSMVariable T :=
  ⟨v.value, v.filter, v.nextListenerId, v.listeners.filter (fun l => l.id ≠ i)⟩

/-- Modelled from the spec: the value codec every bindable type `T` must
supply — the `operator >>` extraction (which can fail) and the
`operator <<` formatting used by the assignment command. -/
structure Codec (T : Type) where
  parse : String → Option T
  format : T → String

/-- The assignment command's own data (from `JSMAssignment.hpp`): command
name, display name, help text, and the id of the on-change listener it
registered on the bound variable. The bound variable is threaded
separately since the command only holds a reference to it. -/
structure JSMAssignment (T : Type) where
  name : String
  displayName : String
  help : String
  listenerId : Nat

/-- Source `JSMAssignment<T>::DisplayNewValue`: the single value-changed display
line `"<displayName> has been set to <newValue>"`. -/
def JSMAssignment.DisplayNewValue {T : Type} (codec : Codec T)
    (cmd : JSMAssignment T) (newValue : T) : List String :=
  [cmd.displayName ++ " has been set to " ++ codec.format newValue]

/-- The whitespace class of ECMAScript `\s` restricted to the byte strings
`std::regex` operates on. -/
def isWsChar (c : Char) : Bool :=
  c = ' ' || c = '\t' || c = '\n' || c = '\x0b' || c = '\x0c' || c = '\r'

/-- The capture character class `[\^\+\w\s]` of the assignment grammar:
caret, plus, word characters (`[A-Za-z0-9_]`) and whitespace. -/
def isCaptureChar (c : Char) : Bool :=
  c = '^' || c = '+' || c.isAlphanum || c = '_' || isWsChar c

/-- The full-string match of `regex_match(arguments, R"(\s*=?\s*([\^\+\w\s]*))")`
from `JSMAssignment<T>::ParseData`, with its capture group: greedy leading
whitespace, an optional `'='`, greedy whitespace, then the capture, which
must consist only of `[\^\+\w\s]` characters. Returns the captured text on
a match, `none` on a shape mismatch. (Greediness is what ECMAScript
semantics produce here: since the capture class contains the whitespace
class, no backtracking alternative can succeed where the greedy walk
fails or produce a different overall match.) -/
def grammarCapture (s : String) : Option String :=
  let l1 := s.toList.dropWhile isWsChar
  let l2 := match l1 with
    | '=' :: rest => rest
    | _ => l1
  let l3 := l2.dropWhile isWsChar
  if l3.all isCaptureChar then some (String.mk l3) else none

/-- Source `JSMAssignment<T>::DefaultParser`: on empty data, print the current
assignment and succeed; otherwise extract a `T` from the text (fail with
`false` if extraction fails), assign it to the variable (which notifies
listeners only on a real stored change), emit the display line manually
when the listener did not fire, and report success iff the requested
value equals the old value or the stored value now differs from the old
value. Result: (return value, variable after the call, output lines). -/
def DefaultParser {T : Type} [DecidableEq T] (codec : Codec T)
    (cmd : JSMAssignment T) (var : JSMVariable T) (data : String) :
    Bool × JSMVariable T × List String :=
  if data = "" then
    (true, var, [cmd.displayName ++ " = " ++ codec.format var.value])
  else
    match codec.parse data with
    | some value =>
      let oldVal := var.value
      let p := var.set value
      let out2 := if oldVal = p.1.value then cmd.DisplayNewValue codec p.1.value else []
      (decide (value = oldVal) || decide (p.1.value ≠ oldVal), p.1, p.2 ++ out2)
    | none => (false, var, [])

/-- Source `JSMAssignment<T>::ParseData`: `"HELP"` prints the help text and
returns `false`; otherwise the arguments must match the assignment
grammar shape, whose capture is handed to the configured parse function
(`_parse`), printing the help text when that parse function fails, and
returning `true` either way; a shape mismatch returns `false` with no
side effect. -/
def ParseData {T : Type} (pf : JSMVariable T → String → Bool × JSMVariable T × List String)
    (help : String) (var : JSMVariable T) (arguments : String) :
    Bool × JSMVariable T × List String :=
  if arguments = "HELP" then
    (false, var, [help])
  else
    match grammarCapture arguments with
    | some captured =>
      let p := pf var captured
      if p.1 then (true, p.2.1, p.2.2) else (true, p.2.1, p.2.2 ++ [help])
    | none => (false, var, [])

/-- Modelled from the spec: the `ButtonID` catalogue and its total order
are external collaborators ("must define a total order with a NONE
sentinel such that valid chords compare strictly greater than NONE"); a
representative finite catalogue with the `NONE` sentinel first. -/
inductive ButtonID where
  | NONE
  | UP
  | DOWN
  | LEFT
  | RIGHT
  | A
  | B
  | X
  | Y
deriving DecidableEq

/-- Modelled from the spec: the numeric value underlying each `ButtonID`,
with `NONE` as the sentinel below every valid button (the code compares
`*btn > ButtonID::NONE` and `int(*btn) >= 0`). -/
def ButtonID.toInt : ButtonID → Int
  | .NONE => -1
  | .UP => 0
  | .DOWN => 1
  | .LEFT => 2
  | .RIGHT => 3
  | .A => 4
  | .B => 5
  | .X => 6
  | .Y => 7

/-- The comparison `*btn > ButtonID::NONE` used by `GetModifiedCmd`. -/
def ButtonID.gtNONE (b : ButtonID) : Bool := ButtonID.toInt ButtonID.NONE < b.toInt

/-- Modelled from the spec: the display name of a `ButtonID` (used by the
`operator <<` that prints the modeshift removal confirmation). -/
def ButtonID.displayText : ButtonID → String
  | .NONE => "NONE"
  | .UP => "UP"
  | .DOWN => "DOWN"
  | .LEFT => "LEFT"
  | .RIGHT => "RIGHT"
  | .A => "A"
  | .B => "B"
  | .X => "X"
  | .Y => "Y"

/-- Modelled from the spec: the `ButtonId` resolver (`magic_enum::enum_cast`)
maps a chord token to a `ButtonID` by its name, or indicates that the
token is unresolvable. -/
def enum_cast (s : String) : Option ButtonID :=
  if s = "NONE" then some ButtonID.NONE
  else if s = "UP" then some ButtonID.UP
  else if s = "DOWN" then some ButtonID.DOWN
  else if s = "LEFT" then some ButtonID.LEFT
  else if s = "RIGHT" then some ButtonID.RIGHT
  else if s = "A" then some ButtonID.A
  else if s = "B" then some ButtonID.B
  else if s = "X" then some ButtonID.X
  else if s = "Y" then some ButtonID.Y
  else none

/-- Modelled from the spec: `OverridableSetting<T>` (`JSMSetting<T>`, not
under `src/`) — a variable plus a chord-id → child-variable override map
and the deferred-removal bookkeeping of the two-phase removal protocol. -/
structure JSMSetting (T : Type) where
  id : String
  var : JSMVariable T
  overrides : List (ButtonID × JSMVariable T)
  marked : List ButtonID

/-- Look an override slot up in the setting's map. -/
def JSMSetting.lookupChord {T : Type} (s : JSMSetting T) (btn : ButtonID) :
    Option (JSMVariable T) :=
  (s.overrides.find? (fun p => p.1 = btn)).map Prod.snd

/-- Modelled from the spec: `OverridableSetting.AtChord` allocates/fetches
the child variable at the given chord id (at most one override per chord
id; re-requesting reuses the existing slot). -/
def JSMSetting.AtChord {T : Type} (s : JSMSetting T) (btn : ButtonID) : JSMSetting T :=
  match s.overrides.find? (fun p => p.1 = btn) with
  | some _ => s
  | none =>
    ⟨s.id, s.var, s.overrides ++ [(btn, ⟨s.var.value, s.var.filter, 0, []⟩)], s.marked⟩

/-- Modelled from the spec: first phase of the two-phase override removal
— mark the chord's override for removal; the slot stays in the map. -/
def JSMSetting.MarkModeshiftForRemoval {T : Type} (s : JSMSetting T)
    (btn : ButtonID) : JSMSetting T :=
  ⟨s.id, s.var, s.overrides, btn :: s.marked⟩

/-- Modelled from the spec: second phase of the two-phase override
removal, run by the derived command's teardown task — erase the chord's
override slot from the map if it was marked. -/
def JSMSetting.ProcessModeshiftRemoval {T : Type} (s : JSMSetting T)
    (btn : ButtonID) : JSMSetting T :=
  if s.marked.contains btn then
    ⟨s.id, s.var, s.overrides.filter (fun p => p.1 ≠ btn),
      s.marked.filter (fun b => b ≠ btn)⟩
  else s

/-- Source `JSMAssignment<T>::ModeshiftParser`: when a setting is bound and the
argument is exactly `"NONE"`, mark the chord's override for removal,
print the removal confirmation and succeed; otherwise delegate to
`DefaultParser` (which acts on the derived command's bound child
variable). Result: (return value, setting, child variable, output). -/
def ModeshiftParser {T : Type} [DecidableEq T] (codec : Codec T)
    (modeshift : ButtonID) (setting : Option (JSMSetting T))
    (cmd : JSMAssignment T) (childVar : JSMVariable T) (argument : String) :
    Bool × Option (JSMSetting T) × JSMVariable T × List String :=
  match setting with
  | some s =>
    if argument = "NONE" then
      (true, some (s.MarkModeshiftForRemoval modeshift), childVar,
        ["Modeshift " ++ modeshift.displayText ++ "," ++ s.id ++ " has been removed."])
    else
      let p := DefaultParser codec cmd childVar argument
      (p.1, some s, p.2.1, p.2.2)
  | none =>
    let p := DefaultParser codec cmd childVar argument
    (p.1, none, p.2.1, p.2.2)

/-- The three distinct storage slots a derived command can bind to: a
setting's modeshift override, a button's chord binding, or a button's
simultaneous-press binding (the latter two are independent maps of
`OverridableButton`, modelled from the spec since `JSMButton` is not
under `src/`). -/
inductive Slot where
  | settingOverride (btn : ButtonID)
  | chordBinding (btn : ButtonID)
  | simPress (btn : ButtonID)
deriving DecidableEq

/-- Which parse function `GetModifiedCmd` installs on the derived
command: the modeshift-aware wrapper bound to the chord and parent
setting, or the parent's own parse function passed along unchanged. -/
inductive ParserKind where
  | modeshift (btn : ButtonID)
  | inherited
deriving DecidableEq

/-- Which teardown task `GetModifiedCmd` attaches to the derived command
(`SetTaskOnDestruction`). -/
inductive TeardownKind where
  | processModeshiftRemoval (btn : ButtonID)
  | processChordRemoval (btn : ButtonID)
  | processSimPressRemoval (btn : ButtonID)
deriving DecidableEq

/-- The observable content of a derived command produced by
`GetModifiedCmd`: its name, the storage slot its bound variable comes
from, its parse function and its teardown task. -/
structure DerivedCmd where
  name : String
  slot : Slot
  parserKind : ParserKind
  teardown : TeardownKind
deriving DecidableEq

/-- The runtime shape of the bound variable, which the source probes with
`dynamic_cast` (`JSMSetting<T>*`, then `JSMButton*`). -/
inductive VarShape where
  | plain
  | setting
  | button
deriving DecidableEq

/-- Modelled from the spec: the base `JSMCommand::GetModifiedCmd` (not
under `src/`) — the default, no-op modifier handling: it produces no
derived command. -/
def JSMCommandGetModifiedCmd (_ : Char) (_ : String) : Option DerivedCmd :=
  none

/-- Source `JSMAssignment<T>::GetModifiedCmd`: resolve the chord token to a
`ButtonID`; when it resolves strictly above `NONE`, operator `','` over a
setting builds the modeshift command `"<chord>,<displayName>"` (modeshift
parser, modeshift-removal teardown, bound at the setting's override
slot), `','` over a button builds `"<chord>,<displayName>"` over the
chord-binding slot with the parent's parser, `'+'` over a button builds
`"<chord>+<displayName>"` over the simultaneous-press slot with the
parent's parser; every other combination falls through to the base
command's default handling. -/
def GetModifiedCmd (displayName : String) (shape : VarShape) (op : Char)
    (chord : String) : Option DerivedCmd :=
  match enum_cast chord with
  | some btn =>
    if btn.gtNONE then
      if op = ',' then
        match shape with
        | .setting =>
          some ⟨chord ++ String.singleton op ++ displayName, .settingOverride btn,
            .modeshift btn, .processModeshiftRemoval btn⟩
        | .button =>
          if btn.gtNONE then
            some ⟨chord ++ String.singleton op ++ displayName, .chordBinding btn,
              .inherited, .processChordRemoval btn⟩
          else JSMCommandGetModifiedCmd op chord
        | .plain => JSMCommandGetModifiedCmd op chord
      else if op = '+' then
        match shape with
        | .button =>
          if 0 ≤ btn.toInt then
            some ⟨chord ++ String.singleton op ++ displayName, .simPress btn,
              .inherited, .processSimPressRemoval btn⟩
          else JSMCommandGetModifiedCmd op chord
        | _ => JSMCommandGetModifiedCmd op chord
      else JSMCommandGetModifiedCmd op chord
    else JSMCommandGetModifiedCmd op chord
  | none => JSMCommandGetModifiedCmd op chord

/-- The `JSMAssignment` constructor: set up the command data and register
`DisplayNewValue` as an on-change listener on the bound variable,
remembering the listener id. Returns the command and the variable with
the listener attached. -/
def JSMAssignment.construct {T : Type} (codec : Codec T) (name displayName : String)
    (var : JSMVariable T) : JSMAssignment T × JSMVariable T :=
  let cmd0 : JSMAssignment T := ⟨name, displayName, "", 0⟩
  let p := var.addOnChangeListener (fun x => cmd0.DisplayNewValue codec x)
  (⟨name, displayName, "", p.2⟩, p.1)

/-- The `JSMAssignment` destructor: remove the command's own listener
(by the remembered id) from the bound variable. -/
def JSMAssignment.destruct {T : Type} (cmd : JSMAssignment T)
    (var : JSMVariable T) : JSMVariable T :=
  var.removeOnChangeListener cmd.listenerId

/-- A concrete decimal parser for `Nat` (structural, so that it reduces
inside the kernel), used to instantiate witnesses. -/
def natParse (s : String) : Option Nat :=
  if s.data ≠ [] ∧ s.data.all Char.isDigit then
    some (s.data.foldl (fun n c => n * 10 + (c.toNat - 48)) 0)
  else none

/-- A concrete codec for `T = Nat`, used to instantiate witnesses. -/
def natCodec : Codec Nat := ⟨natParse, toString⟩

/-- A concrete bound variable (value `2`, identity filter, no listeners). -/
def natVar : JSMVariable Nat := ⟨2, id, 0, []⟩

/-- A concrete assignment command named `SENS`. -/
def natCmd : JSMAssignment Nat := ⟨"SENS", "SENS", "Usage: SENS = value", 0⟩

/-- A concrete overridable setting over `Nat`, used for the C8 witness. -/
def natSetting : JSMSetting Nat := ⟨"MIN_GYRO_SENS", natVar, [], []⟩

example : grammarCapture " = abc" = some "abc" := by decide
example : grammarCapture "" = some "" := by decide
example : grammarCapture "  " = some "" := by decide
example : grammarCapture "=" = some "" := by decide
example : grammarCapture "==x" = none := by decide
example : grammarCapture "a-b" = none := by decide
example : grammarCapture "^ +W_1 " = some "^ +W_1 " := by decide

/-- C4: for every variable state (and any configured parse function),
`process("HELP")` prints exactly the help text, returns `false`, and
leaves the bound variable untouched. -/
theorem parseData_HELP {T : Type}
    (pf : JSMVariable T → String → Bool × JSMVariable T × List String)
    (help : String) (var : JSMVariable T) :
    ParseData pf help var "HELP" = (false, var, [help]) := by
  simp [ParseData]

/-- C5: for every argument string other than `"HELP"`, `process` returns
`true` exactly when the string matches the assignment grammar shape
(optional whitespace, optional `'='`, optional whitespace, then a
possibly empty run of `[\^\+\w\s]` characters); on a shape mismatch it
returns `false` with no side effect on the variable and no output. -/
theorem parseData_shape {T : Type}
    (pf : JSMVariable T → String → Bool × JSMVariable T × List String)
    (help : String) (var : JSMVariable T) (arguments : String)
    (h : arguments ≠ "HELP") :
    ((ParseData pf help var arguments).1 = true ↔
      (grammarCapture arguments).isSome = true) ∧
    (grammarCapture arguments = none →
      ParseData pf help var arguments = (false, var, [])) := by
  unfold ParseData
  rw [if_neg h]
  cases hg : grammarCapture arguments with
  | none => simp
  | some c =>
    by_cases hb : (pf var c).1 = true <;> simp [hb]

/-- C5 witness at a concrete input: `"= 12"` is not `"HELP"`, matches the
shape, and `process` returns `true` on it. -/
theorem parseData_shape_witness :
    (("= 12" : String) ≠ "HELP") ∧
    (((ParseData (DefaultParser natCodec natCmd) natCmd.help natVar "= 12").1 = true ↔
      (grammarCapture "= 12").isSome = true) ∧
    (grammarCapture "= 12" = none →
      ParseData (DefaultParser natCodec natCmd) natCmd.help natVar "= 12" =
        (false, natVar, []))) :=
  ⟨by decide, parseData_shape (DefaultParser natCodec natCmd) natCmd.help natVar "= 12"
    (by decide)⟩

/-- C6: whenever the grammar capture of the argument line is empty (query
mode), `process` with the default parser prints exactly the line
`"<displayName> = <currentValue>"`, returns `true`, and does not mutate
the bound variable. -/
theorem parseData_query {T : Type} [DecidableEq T] (codec : Codec T)
    (cmd : JSMAssignment T) (var : JSMVariable T) (arguments : String)
    (h : grammarCapture arguments = some "") :
    ParseData (DefaultParser codec cmd) cmd.help var arguments =
      (true, var, [cmd.displayName ++ " = " ++ codec.format var.value]) := by
  have harg : arguments ≠ "HELP" := by
    intro he
    rw [he] at h
    exact absurd h (by decide)
  unfold ParseData
  rw [if_neg harg, h]
  simp [DefaultParser]

/-- C6 witness at a concrete input: the all-shape line `" = "` has an
empty capture, and a query on `natVar` (value `2`) prints `SENS = 2`. -/
theorem parseData_query_witness :
    (grammarCapture " = " = some "") ∧
    ParseData (DefaultParser natCodec natCmd) natCmd.help natVar " = " =
      (true, natVar, [natCmd.displayName ++ " = " ++ natCodec.format natVar.value]) :=
  ⟨by decide, parseData_query natCodec natCmd natVar " = " (by decide)⟩

/-- C3 counterexample: the literal line `"HELP"` matches the grammar
shape with the non-empty capture `"HELP"`, which the `Nat` codec cannot
convert, yet `process` returns `false` (the HELP branch takes precedence
over the grammar), contradicting the claim's "returns true" for every
such line. -/
theorem parseData_valueFailure_cex :
    grammarCapture "HELP" = some "HELP" ∧
    ("HELP" : String) ≠ "" ∧
    natCodec.parse "HELP" = none ∧
    (ParseData (DefaultParser natCodec natCmd) natCmd.help natVar "HELP").1 = false := by
  decide

/-- C3 (amended: the argument line is additionally not the exact string
`"HELP"`, which the code intercepts first): a line matching the grammar
shape whose non-empty capture cannot be converted to `T` makes `process`
print exactly the help text, return `true`, and leave the bound variable
unchanged. -/
theorem parseData_valueFailure {T : Type} [DecidableEq T] (codec : Codec T)
    (cmd : JSMAssignment T) (var : JSMVariable T) (arguments cap : String)
    (harg : arguments ≠ "HELP") (h : grammarCapture arguments = some cap)
    (hne : cap ≠ "") (hp : codec.parse cap = none) :
    ParseData (DefaultParser codec cmd) cmd.help var arguments =
      (true, var, [cmd.help]) := by
  unfold ParseData
  rw [if_neg harg, h]
  simp [DefaultParser, if_neg hne, hp]

/-- C3 witness at a concrete input: `"SENS = abc"`-style argument text
`" = abc"` captures `"abc"`, which fails to parse as `Nat`; help is
printed, the call returns `true` and the variable keeps its value. -/
theorem parseData_valueFailure_witness :
    ((" = abc" : String) ≠ "HELP") ∧
    (grammarCapture " = abc" = some "abc") ∧
    (("abc" : String) ≠ "") ∧
    (natCodec.parse "abc" = none) ∧
    ParseData (DefaultParser natCodec natCmd) natCmd.help natVar " = abc" =
      (true, natVar, [natCmd.help]) :=
  ⟨by decide, by decide, by decide, by decide,
    parseData_valueFailure natCodec natCmd natVar " = abc" "abc" (by decide)
      (by decide) (by decide) (by decide)⟩

/-- C1: when the captured text parses to a value `v`, the default parser
stores `v` (through the variable's filter) into the bound variable, and
it returns `true` exactly when `v` equals the old value or the stored
value after the assignment differs from the old value; in the remaining
case (a genuinely different `v` whose stored value collapsed back to the
old value) it returns `false`. -/
theorem defaultParser_success_iff {T : Type} [DecidableEq T] (codec : Codec T)
    (cmd : JSMAssignment T) (var : JSMVariable T) (data : String) (v : T)
    (hne : data ≠ "") (hp : codec.parse data = some v) :
    ((DefaultParser codec cmd var data).2.1.value = var.filter v) ∧
    ((DefaultParser codec cmd var data).1 = true ↔
      (v = var.value ∨ (DefaultParser codec cmd var data).2.1.value ≠ var.value)) := by
  unfold DefaultParser
  rw [if_neg hne, hp]
  by_cases hc : var.filter v = var.value <;>
    simp [JSMVariable.set, hc]

/-- C1 witness at a concrete input: parsing `"5"` over a variable holding
`2` (identity filter) stores `5` and succeeds, matching the disjunction. -/
theorem defaultParser_success_iff_witness :
    (("5" : String) ≠ "") ∧
    (natCodec.parse "5" = some 5) ∧
    (((DefaultParser natCodec natCmd natVar "5").2.1.value = natVar.filter 5) ∧
    ((DefaultParser natCodec natCmd natVar "5").1 = true ↔
      (5 = natVar.value ∨ (DefaultParser natCodec natCmd natVar "5").2.1.value ≠ natVar.value))) :=
  ⟨by decide, by decide,
    defaultParser_success_iff natCodec natCmd natVar "5" 5 (by decide) (by decide)⟩

/-- C2: a successful assignment through the default parser, on a command
constructed over a variable that had no other listeners, emits exactly
one value-changed display line — produced by the registered on-change
listener when the stored value changed, and by the explicit
`DisplayNewValue` fallback when the stored value equals the old one —
never two lines for the same call. -/
theorem defaultParser_single_display {T : Type} [DecidableEq T] (codec : Codec T)
    (name dn : String) (var0 : JSMVariable T) (data : String) (v : T)
    (h0 : var0.listeners = [])
    (hp : codec.parse data = some v) (hne : data ≠ "")
    (_hs : (DefaultParser codec (JSMAssignment.construct codec name dn var0).1
      (JSMAssignment.construct codec name dn var0).2 data).1 = true) :
    (DefaultParser codec (JSMAssignment.construct codec name dn var0).1
      (JSMAssignment.construct codec name dn var0).2 data).2.2 =
      [dn ++ " has been set to " ++ codec.format (var0.filter v)] := by
  have hl : (JSMAssignment.construct codec name dn var0).2 =
      ⟨var0.value, var0.filter, var0.nextListenerId + 1,
        [⟨var0.nextListenerId,
          fun x => JSMAssignment.DisplayNewValue codec ⟨name, dn, "", 0⟩ x⟩]⟩ := by
    simp [JSMAssignment.construct, JSMVariable.addOnChangeListener, h0]
  rw [hl]
  unfold DefaultParser
  rw [if_neg hne, hp]
  by_cases hc : var0.filter v = var0.value <;>
    simp [JSMVariable.set, hc, JSMAssignment.DisplayNewValue, JSMAssignment.construct,
      JSMVariable.addOnChangeListener]
  exact fun h => hc h.symm

/-- C2 witness at a concrete input: assigning `"5"` over a freshly
constructed command bound to a listener-free variable holding `2`
produces exactly the single line `SENS has been set to 5`. -/
theorem defaultParser_single_display_witness :
    (natVar.listeners = []) ∧
    (natCodec.parse "5" = some 5) ∧
    (("5" : String) ≠ "") ∧
    ((DefaultParser natCodec (JSMAssignment.construct natCodec "SENS" "SENS" natVar).1
      (JSMAssignment.construct natCodec "SENS" "SENS" natVar).2 "5").1 = true) ∧
    (DefaultParser natCodec (JSMAssignment.construct natCodec "SENS" "SENS" natVar).1
      (JSMAssignment.construct natCodec "SENS" "SENS" natVar).2 "5").2.2 =
      ["SENS" ++ " has been set to " ++ natCodec.format (natVar.filter 5)] :=
  ⟨rfl, by decide, by decide, by decide,
    defaultParser_single_display natCodec "SENS" "SENS" natVar "5" 5 rfl
      (by decide) (by decide) (by decide)⟩

/-- C7: for a chord token resolving to a `ButtonID` strictly above
`NONE`, `GetModifiedCmd` performs the claimed case analysis: `','` over a
setting yields `"<chord>,<displayName>"` bound at the setting's override
slot (with the modeshift parser and modeshift-removal teardown), `','`
over a button yields `"<chord>,<displayName>"` bound at the
chord-binding slot, `'+'` over a button yields `"<chord>+<displayName>"`
bound at the simultaneous-press slot — a slot distinct from the chord
slot for the same `ButtonID`. -/
theorem getModifiedCmd_cases (dn chord : String) (btn : ButtonID)
    (h1 : enum_cast chord = some btn) (h2 : btn.gtNONE = true) :
    GetModifiedCmd dn .setting ',' chord =
      some ⟨chord ++ "," ++ dn, .settingOverride btn, .modeshift btn,
        .processModeshiftRemoval btn⟩ ∧
    GetModifiedCmd dn .button ',' chord =
      some ⟨chord ++ "," ++ dn, .chordBinding btn, .inherited,
        .processChordRemoval btn⟩ ∧
    GetModifiedCmd dn .button '+' chord =
      some ⟨chord ++ "+" ++ dn, .simPress btn, .inherited,
        .processSimPressRemoval btn⟩ ∧
    Slot.chordBinding btn ≠ Slot.simPress btn := by
  have h3 : 0 ≤ btn.toInt := by
    cases btn <;> revert h2 <;> decide
  unfold GetModifiedCmd
  rw [h1]
  simp [h2, h3, String.singleton]
  exact ⟨rfl, rfl⟩

/-- C7 witness at a concrete input: chord token `"B"` over display name
`"A"` yields `"B,A"` (setting override), `"B,A"` (chord binding) and
`"B+A"` (simultaneous press). -/
theorem getModifiedCmd_cases_witness :
    (enum_cast "B" = some ButtonID.B) ∧
    (ButtonID.gtNONE ButtonID.B = true) ∧
    (GetModifiedCmd "A" .setting ',' "B" =
      some ⟨"B" ++ "," ++ "A", .settingOverride ButtonID.B, .modeshift ButtonID.B,
        .processModeshiftRemoval ButtonID.B⟩ ∧
    GetModifiedCmd "A" .button ',' "B" =
      some ⟨"B" ++ "," ++ "A", .chordBinding ButtonID.B, .inherited,
        .processChordRemoval ButtonID.B⟩ ∧
    GetModifiedCmd "A" .button '+' "B" =
      some ⟨"B" ++ "+" ++ "A", .simPress ButtonID.B, .inherited,
        .processSimPressRemoval ButtonID.B⟩ ∧
    Slot.chordBinding ButtonID.B ≠ Slot.simPress ButtonID.B) :=
  ⟨by decide, by decide, getModifiedCmd_cases "A" "B" ButtonID.B (by decide) (by decide)⟩

/-- C9: when the chord token is unresolvable, or resolves to a
`ButtonID` not strictly greater than `NONE`, `GetModifiedCmd` produces no
derived command of its own and silently delegates to the base command's
default no-op modifier handling, for every operator and variable shape. -/
theorem getModifiedCmd_unresolvable (dn : String) (shape : VarShape) (op : Char)
    (chord : String)
    (h : enum_cast chord = none ∨
      ∃ b, enum_cast chord = some b ∧ b.gtNONE = false) :
    GetModifiedCmd dn shape op chord = JSMCommandGetModifiedCmd op chord ∧
    GetModifiedCmd dn shape op chord = none := by
  have hbase : GetModifiedCmd dn shape op chord = JSMCommandGetModifiedCmd op chord := by
    unfold GetModifiedCmd
    rcases h with h | ⟨b, hb, hgt⟩
    · rw [h]
    · rw [hb]
      simp [hgt]
  exact ⟨hbase, hbase.trans rfl⟩

/-- C9 witness at a concrete input: the token `"FOO"` is unresolvable, so
composition with `','` over a setting falls through to the no-op base
handling. -/
theorem getModifiedCmd_unresolvable_witness :
    (enum_cast "FOO" = none ∨
      ∃ b, enum_cast "FOO" = some b ∧ b.gtNONE = false) ∧
    (GetModifiedCmd "SENS" .setting ',' "FOO" = JSMCommandGetModifiedCmd ',' "FOO" ∧
    GetModifiedCmd "SENS" .setting ',' "FOO" = none) :=
  ⟨Or.inl (by decide),
    getModifiedCmd_unresolvable "SENS" .setting ',' "FOO" (Or.inl (by decide))⟩

/-- Helper: after `AtChord`, the override slot for the chord is present. -/
theorem lookupChord_AtChord_isSome {T : Type} (s : JSMSetting T) (btn : ButtonID) :
    ((s.AtChord btn).lookupChord btn).isSome = true := by
  unfold JSMSetting.AtChord JSMSetting.lookupChord
  cases hf : s.overrides.find? (fun p => p.1 = btn) with
  | some pr => simp [JSMSetting.lookupChord, hf]
  | none => simp [List.find?_append, hf, List.find?]

/-- Helper: marking preserves the override map, so the marked slot stays
readable. -/
theorem lookupChord_mark {T : Type} (s : JSMSetting T) (btn : ButtonID) :
    (s.MarkModeshiftForRemoval btn).lookupChord btn = s.lookupChord btn := rfl

/-- Helper: processing a marked removal erases the slot from the map. -/
theorem lookupChord_process_mark {T : Type} (s : JSMSetting T) (btn : ButtonID) :
    ((s.MarkModeshiftForRemoval btn).ProcessModeshiftRemoval btn).lookupChord btn =
      none := by
  unfold JSMSetting.MarkModeshiftForRemoval JSMSetting.ProcessModeshiftRemoval
  rw [if_pos (by simp)]
  unfold JSMSetting.lookupChord
  simp only [Option.map_eq_none']
  rw [List.find?_eq_none]
  intro x hx
  rw [List.mem_filter] at hx
  simpa using hx.2

/-- C8: a modeshift-derived command's parser, on the exact argument
`"NONE"`, marks the chord's override for removal, prints the removal
confirmation and returns `true` without delegating to the default
parser (the bound child variable is untouched); on any other argument it
delegates to the default parser; and after the attached teardown task
(`ProcessModeshiftRemoval`) runs on the marked setting, the override
slot — present after `AtChord` — is absent from the parent's map. -/
theorem modeshift_removal_protocol {T : Type} [DecidableEq T] (codec : Codec T)
    (btn : ButtonID) (s : JSMSetting T) (cmd : JSMAssignment T)
    (cv : JSMVariable T) (arg : String) (hne : arg ≠ "NONE") :
    (ModeshiftParser codec btn (some s) cmd cv "NONE" =
      (true, some (s.MarkModeshiftForRemoval btn), cv,
        ["Modeshift " ++ btn.displayText ++ "," ++ s.id ++ " has been removed."])) ∧
    (ModeshiftParser codec btn (some s) cmd cv arg =
      ((DefaultParser codec cmd cv arg).1, some s,
        (DefaultParser codec cmd cv arg).2.1,
        (DefaultParser codec cmd cv arg).2.2)) ∧
    (((s.AtChord btn).lookupChord btn).isSome = true) ∧
    ((((s.AtChord btn).MarkModeshiftForRemoval btn).lookupChord btn).isSome = true) ∧
    ((((s.AtChord btn).MarkModeshiftForRemoval btn).ProcessModeshiftRemoval
        btn).lookupChord btn = none) := by
  refine ⟨by simp [ModeshiftParser], by simp [ModeshiftParser, hne], ?_, ?_, ?_⟩
  · exact lookupChord_AtChord_isSome s btn
  · rw [lookupChord_mark]
    exact lookupChord_AtChord_isSome s btn
  · exact lookupChord_process_mark (s.AtChord btn) btn

/-- C8 witness at a concrete input: chord `B` over `natSetting` with the
non-`"NONE"` argument `"5"`; `"NONE"` marks and confirms, `"5"`
delegates, and teardown empties the slot that `AtChord` created. -/
theorem modeshift_removal_protocol_witness :
    (("5" : String) ≠ "NONE") ∧
    ((ModeshiftParser natCodec ButtonID.B (some natSetting) natCmd natVar "NONE" =
      (true, some (natSetting.MarkModeshiftForRemoval ButtonID.B), natVar,
        ["Modeshift " ++ ButtonID.B.displayText ++ "," ++ natSetting.id ++
          " has been removed."])) ∧
    (ModeshiftParser natCodec ButtonID.B (some natSetting) natCmd natVar "5" =
      ((DefaultParser natCodec natCmd natVar "5").1, some natSetting,
        (DefaultParser natCodec natCmd natVar "5").2.1,
        (DefaultParser natCodec natCmd natVar "5").2.2)) ∧
    (((natSetting.AtChord ButtonID.B).lookupChord ButtonID.B).isSome = true) ∧
    ((((natSetting.AtChord ButtonID.B).MarkModeshiftForRemoval
        ButtonID.B).lookupChord ButtonID.B).isSome = true) ∧
    ((((natSetting.AtChord ButtonID.B).MarkModeshiftForRemoval
        ButtonID.B).ProcessModeshiftRemoval ButtonID.B).lookupChord ButtonID.B =
      none)) :=
  ⟨by decide,
    modeshift_removal_protocol natCodec ButtonID.B natSetting natCmd natVar "5"
      (by decide)⟩

/-- C10: the constructor registers exactly one on-change listener
belonging to the command (none with its id existed before, given the
notifier's freshness invariant), and the destructor removes exactly that
listener, restoring the variable's listener list — so afterwards the
variable holds no callback into the destroyed command. -/
theorem listener_lifecycle {T : Type} (codec : Codec T) (name dn : String)
    (var : JSMVariable T)
    (hinv : ∀ l ∈ var.listeners, l.id < var.nextListenerId) :
    (((JSMAssignment.construct codec name dn var).2.listeners.filter
        (fun l => l.id = (JSMAssignment.construct codec name dn var).1.listenerId)).length
      = 1) ∧
    ((var.listeners.filter
        (fun l => l.id = (JSMAssignment.construct codec name dn var).1.listenerId)).length
      = 0) ∧
    (((JSMAssignment.construct codec name dn var).1.destruct
        (JSMAssignment.construct codec name dn var).2).listeners = var.listeners) := by
  have hid : (JSMAssignment.construct codec name dn var).1.listenerId =
      var.nextListenerId := rfl
  have hnil : var.listeners.filter (fun l => decide (l.id = var.nextListenerId)) = [] := by
    rw [List.filter_eq_nil_iff]
    intro l hl
    simpa using Nat.ne_of_lt (hinv l hl)
  refine ⟨?_, ?_, ?_⟩
  · rw [hid]
    simp [JSMAssignment.construct, JSMVariable.addOnChangeListener,
      List.filter_append, hnil, List.filter]
  · rw [hid]
    simp [hnil]
  · rw [JSMAssignment.destruct]
    simp [JSMAssignment.construct, JSMVariable.addOnChangeListener,
      JSMVariable.removeOnChangeListener, List.filter_append, List.filter]
    intro a ha
    exact Nat.ne_of_lt (hinv a ha)

/-- C10 witness at a concrete input: constructing over the listener-free
`natVar` adds exactly the command's listener, and destructing removes it
again. -/
theorem listener_lifecycle_witness :
    (∀ l ∈ natVar.listeners, l.id < natVar.nextListenerId) ∧
    ((((JSMAssignment.construct natCodec "SENS" "SENS" natVar).2.listeners.filter
        (fun l => l.id =
          (JSMAssignment.construct natCodec "SENS" "SENS" natVar).1.listenerId)).length
      = 1) ∧
    ((natVar.listeners.filter
        (fun l => l.id =
          (JSMAssignment.construct natCodec "SENS" "SENS" natVar).1.listenerId)).length
      = 0) ∧
    (((JSMAssignment.construct natCodec "SENS" "SENS" natVar).1.destruct
        (JSMAssignment.construct natCodec "SENS" "SENS" natVar).2).listeners =
      natVar.listeners)) :=
  ⟨by simp [natVar],
    listener_lifecycle natCodec "SENS" "SENS" natVar (by simp [natVar])⟩
